import Mathlib

/-!
Verification development for the `market-factor-sim` ETL pipeline.

We shallowly embed the four pipeline stages that carry decision logic:

* `scripts/cse/prepare_and_ingest.py` — classifier (`classify_and_summarize`)
  and normalizer (`normalize_has_data`);
* `scripts/select_tickers.py` — ticker selection;
* `scripts/assemble_prices.py` — panel assembly;
* `scripts/compute_daily_returns.py` — per-ticker returns.

Modelling conventions:

* Parsed JSON documents are values of the inductive type `JVal`.  The JSON
  text parser itself (`json.loads`, a Python standard-library collaborator)
  is a parameter `parse : String → Option JVal` of the classifier, with
  `none` standing for a raised `JSONDecodeError`; parsing the literal text
  `null` is represented by `some .jnull` (both end in the same statuses as
  CPython, where `json.loads` returns `None`).
* Calendar dates are integers counting days since the Unix epoch
  (1970-01-01 = day 0).  `datetime.utcfromtimestamp(ms/1000.0).date()` is
  modelled exactly over the integers as floor division by 86 400 000 ms,
  guarded by CPython's representable-year range 0001-01-01 .. 9999-12-31
  (an out-of-range timestamp raises, which the scripts' bare `except`
  clauses turn into a skip).  ISO rendering of a date and re-parsing via
  `date.fromisoformat` are mutually inverse and order-preserving, so the
  manifest's ISO strings are carried as `Option Int` day numbers
  (`none` = the empty string).
* File-system reads are data: a read either yields the decoded text or an
  exception (`Except Unit String`), matching the placement of the
  `try`/`except` blocks in the scripts.
* Numbers are exact rationals; IEEE rounding is out of scope.  Where a
  float operation produces a non-finite value that the code maps to null
  (or that the relevant claim's hypotheses exclude), the model returns
  `none`.
-/

namespace MFS

/-- A parsed JSON document, as produced by `json.loads`.  Object fields are
kept in insertion order, matching CPython dicts over which the scripts
iterate. -/
inductive JVal where
  | jnull : JVal
  | jbool (b : Bool) : JVal
  | jnum (q : ℚ) : JVal
  | jstr (s : String) : JVal
  | jarr (xs : List JVal) : JVal
  | jobj (fields : List (String × JVal)) : JVal

/-- Python truthiness of a JSON value (`bool(v)`). -/
def pyTruthy : JVal → Bool
  | .jnull => false
  | .jbool b => b
  | .jnum q => q ≠ 0
  | .jstr s => s ≠ ""
  | .jarr xs => ¬ xs.isEmpty
  | .jobj fs => ¬ fs.isEmpty

/-- `it.get(k)` on a parsed-JSON dict.  CPython returns `None` both when the
key is absent and when its value is JSON `null`, so both become `none`. -/
def pyGet (fields : List (String × JVal)) (k : String) : Option JVal :=
  match (fields.find? (fun p => p.1 = k)).map Prod.snd with
  | some .jnull => none
  | some v => some v
  | none => none

/-- Python's short-circuit `a or b` over optional values: the left value is
kept only when it is truthy, otherwise the right operand is returned (even
when the right operand is itself falsy). -/
def pyOr2 (a b : Option JVal) : Option JVal :=
  match a with
  | some v => if pyTruthy v then some v else b
  | none => b

/-- Python whitespace characters recognised by `str.strip()`. -/
def isPySpace (c : Char) : Bool :=
  c = ' ' ∨ c = '\t' ∨ c = '\n' ∨ c = '\x0d' ∨ c = '\x0b' ∨ c = '\x0c'

/-- `s.strip()` on a list of characters. -/
def pyStripList (cs : List Char) : List Char :=
  ((cs.dropWhile isPySpace).reverse.dropWhile isPySpace).reverse

/-- `s.strip()`. -/
def pyStrip (s : String) : String :=
  String.mk (pyStripList s.toList)

/-- Value of a non-empty all-digit character run, `none` otherwise. -/
def digitsVal (cs : List Char) : Option Nat :=
  if cs.isEmpty then none
  else if cs.all Char.isDigit then
    some (cs.foldl (fun acc c => acc * 10 + (c.toNat - '0'.toNat)) 0)
  else none

/-- `int(s)` on a string: surrounding whitespace, an optional sign, then
decimal digits (PEP 515 underscores are not modelled; no claim depends on
them). -/
def pyIntOfStr (s : String) : Option Int :=
  match pyStripList s.toList with
  | '-' :: rest => (digitsVal rest).map (fun n => -(n : Int))
  | '+' :: rest => (digitsVal rest).map (fun n => (n : Int))
  | rest => (digitsVal rest).map (fun n => (n : Int))

/-- Truncation of a rational toward zero, as `int(float)` does
(`Int.tdiv` is T-division, rounding toward zero). -/
def truncRat (q : ℚ) : Int :=
  Int.tdiv q.num (q.den : Int)

/-- `int(v)` on a JSON value: numbers truncate toward zero, booleans are
0/1, numeric strings parse, everything else raises (= `none`, caught by the
scripts' `except` clauses). -/
def pyInt : JVal → Option Int
  | .jnum q => some (truncRat q)
  | .jbool b => some (cond b 1 0)
  | .jstr s => pyIntOfStr s
  | _ => none

/-- Day number (days since 1970-01-01) of
`datetime.utcfromtimestamp(ms/1000.0).date()`; `none` when the timestamp
falls outside CPython's year range 1..9999 and the call raises. -/
def pyMsToDay (ms : Int) : Option Int :=
  let d := Int.fdiv ms 86400000
  if -719162 ≤ d ∧ d ≤ 2932896 then some d else none

/-- Scale a rational by a signed power of ten. -/
def mulPow10 (q : ℚ) (e : Int) : ℚ :=
  if 0 ≤ e then q * ((10 : ℚ) ^ e.toNat) else q / ((10 : ℚ) ^ (-e).toNat)

/-- Decimal-literal parser modelling `pandas.to_numeric` on a string:
optional sign, digits with an optional fractional part, optional exponent.
`inf`/`nan` spellings are not modelled (no claim depends on them). -/
def pyRatOfStr (s : String) : Option ℚ :=
  let cs := pyStripList s.toList
  let (sgn, cs) : ℚ × List Char :=
    match cs with
    | '-' :: rest => (-1, rest)
    | '+' :: rest => (1, rest)
    | rest => (1, rest)
  let intPart := cs.takeWhile Char.isDigit
  let cs₁ := cs.drop intPart.length
  let (fracPart, cs₂) : List Char × List Char :=
    match cs₁ with
    | '.' :: rest => (rest.takeWhile Char.isDigit, rest.drop (rest.takeWhile Char.isDigit).length)
    | rest => ([], rest)
  if intPart.isEmpty ∧ fracPart.isEmpty then none
  else
    let mantissa : ℚ :=
      ((intPart ++ fracPart).foldl (fun (acc : ℚ) (c : Char) => acc * 10 + ((c.toNat - '0'.toNat : ℕ) : ℚ)) (0 : ℚ)) /
        ((10 : ℚ) ^ fracPart.length)
    match cs₂ with
    | [] => some (sgn * mantissa)
    | 'e' :: rest => (expVal rest).map (fun e => sgn * mulPow10 mantissa e)
    | 'E' :: rest => (expVal rest).map (fun e => sgn * mulPow10 mantissa e)
    | _ => none
where
  /-- Signed exponent digits. -/
  expVal (cs : List Char) : Option Int :=
    match cs with
    | '-' :: rest => (digitsVal rest).map (fun n => -(n : Int))
    | '+' :: rest => (digitsVal rest).map (fun n => (n : Int))
    | rest => (digitsVal rest).map (fun n => (n : Int))

/-- `pandas.to_numeric(v, errors="coerce")` on one cell: numbers pass
through, booleans map to 0/1, numeric strings parse, everything else
coerces to NaN (= `none`). -/
def pyToNumeric : JVal → Option ℚ
  | .jnum q => some q
  | .jbool b => some (cond b 1 0)
  | .jstr s => pyRatOfStr s
  | _ => none

/-- `cs` ends with `suffix` (Python `str.endswith` over character lists). -/
def listEndsWith (suffix cs : List Char) : Bool :=
  cs.drop (cs.length - suffix.length) = suffix

/-- `s.lower()` (ASCII case folding suffices for the extensions tested). -/
def pyLower (s : String) : String :=
  String.mk (s.toList.map Char.toLower)

/-! ## Classifier (`classify_and_summarize`, prepare_and_ingest.py lines 27-124) -/

/-- The trade-date alias chain
`it.get("tradeDate") or it.get("d") or it.get("date")` (lines 76 and 165):
Python `or` chains by truthiness, so a falsy alias value (0, "", false,
null, empty containers) falls through to the next alias. -/
def tdOf (fields : List (String × JVal)) : Option JVal :=
  pyOr2 (pyGet fields "tradeDate") (pyOr2 (pyGet fields "d") (pyGet fields "date"))

/-- Date extracted by the classifier from one record (lines 73-82):
non-dict records, records whose chained alias value is `None`, and records
whose value fails `int()` or falls outside the representable date range are
skipped (`continue` / bare `except: pass`). -/
def classDate : JVal → Option Int
  | .jobj fs => (tdOf fs).bind (fun v => (pyInt v).bind pyMsToDay)
  | _ => none

/-- The `dates` list accumulated by the classifier's extraction loop
(`dates.append(...)` skipping failures). -/
def extractDates (l : List JVal) : List Int :=
  l.foldl (fun acc it =>
    match classDate it with
    | some d => acc ++ [d]
    | none => acc) []

/-- Per-file summary fields of a manifest row: status, record count,
start/end dates (`none` = written as the empty string). -/
structure FSum where
  status : String
  recs : Nat
  sd : Option Int
  ed : Option Int
  deriving DecidableEq, Repr

/-- Shape rule for a record list (lines 66-85 and 90-107): row count is the
length; an empty list is `empty_array`, a non-empty one `has_data` with
start/end the min/max of the extractable dates (empty when none parse). -/
def listSummary (l : List JVal) : FSum :=
  if l.isEmpty then ⟨"empty_array", l.length, none, none⟩
  else
    let dates := extractDates l
    ⟨"has_data", l.length, dates.min?, dates.max?⟩

/-- First list-valued field of a dict, scanning values in insertion order
(lines 88-109). -/
def firstListField : List (String × JVal) → Option (List JVal)
  | [] => none
  | (_, .jarr l) :: _ => some l
  | _ :: rest => firstListField rest

/-- Shape analysis of a parsed document (lines 66-113): a list uses the
list rule; a dict delegates to its first list-valued field, or is
`invalid_json` when it has none; any other value is `invalid_json`. -/
def shapeSum : JVal → FSum
  | .jarr l => listSummary l
  | .jobj fs =>
    match firstListField fs with
    | some l => listSummary l
    | none => ⟨"invalid_json", 0, none, none⟩
  | _ => ⟨"invalid_json", 0, none, none⟩

/-- `txt[txt.find("["):txt.rfind("]")+1]` (lines 55-58). -/
def bracketSub (cs : List Char) : List Char :=
  let i := cs.indexOf '['
  let jdx := cs.length - 1 - cs.reverse.indexOf ']'
  (cs.drop i).take (jdx + 1 - i)

/-- Document obtained from stripped text: direct `json.loads`, and on
failure the bracket-substring salvage, attempted only when both `[` and `]`
occur in the text (lines 50-62). -/
def parsedDoc (parse : String → Option JVal) (txt : String) : Option JVal :=
  match parse txt with
  | some j => some j
  | none =>
    if txt.toList.contains '[' ∧ txt.toList.contains ']' then
      parse (String.mk (bracketSub txt.toList))
    else none

/-- Per-file classification (lines 40-115).  `rd` is the outcome of
opening and reading the file, the one fallible step inside the `try` whose
failure is not already caught by an inner handler; the surrounding
`except` turns it into status `error` with the fields still at their
initial values.  A file of size 0 is classified before any read. -/
def classifyBody (parse : String → Option JVal) (size : Nat)
    (rd : Except Unit String) : FSum :=
  if size = 0 then ⟨"empty_file", 0, none, none⟩
  else
    match rd with
    | .error _ => ⟨"error", 0, none, none⟩
    | .ok raw =>
      let txt := pyStrip raw
      if txt = "" then ⟨"empty_file", 0, none, none⟩
      else
        match parsedDoc parse txt with
        | none => ⟨"invalid_json", 0, none, none⟩
        | some j => shapeSum j

/-- One manifest row (`ticker,relative_path,status,rows,start_date,end_date,filesize_bytes`). -/
structure ManRow where
  ticker : String
  rel : String
  status : String
  recs : Nat
  sd : Option Int
  ed : Option Int
  size : Nat
  deriving DecidableEq, Repr

/-- `os.path.splitext(fn)[0]`: everything before the last dot, except that
a basename consisting only of leading dots and an extension-like tail is
kept whole. -/
def stemOf (name : String) : String :=
  let cs := name.toList
  let i := cs.length - 1 - cs.reverse.indexOf '.'
  if cs.contains '.' ∧ (cs.take i).any (fun c => c ≠ '.') then String.mk (cs.take i) else name

/-- `fn.lower().endswith((".json", ".txt"))` (line 31). -/
def eligibleName (n : String) : Bool :=
  listEndsWith ".json".toList (pyLower n).toList ||
    listEndsWith ".txt".toList (pyLower n).toList

/-- Path of a file relative to the raw root. -/
def relOf (dir n : String) : String :=
  if dir = "" then n else dir ++ "/" ++ n

/-- Manifest row for one file.  `fsys dir name` is the file system's answer
for that path: its size as reported by `os.path.getsize`, and the outcome
of opening and reading it. -/
def classifyOne (parse : String → Option JVal)
    (fsys : String → String → Nat × Except Unit String) (dir n : String) : ManRow :=
  let sz := (fsys dir n).1
  let s := classifyBody parse sz (fsys dir n).2
  ⟨stemOf n, relOf dir n, s.status, s.recs, s.sd, s.ed, sz⟩

/-- `sorted(files)` (line 30): Python sorts names lexicographically by code
point, which is the `String` linear order. -/
def sortNames (l : List String) : List String :=
  l.insertionSort (· ≤ ·)

/-- The whole classification pass (lines 29-117): `walk` is the sequence of
directories yielded by `os.walk` together with each directory's file-name
listing (in arbitrary listing order); names are sorted, filtered by
extension, and classified, producing one manifest row per eligible file. -/
def classifyRun (parse : String → Option JVal)
    (fsys : String → String → Nat × Except Unit String)
    (walk : List (String × List String)) : List ManRow :=
  walk.flatMap (fun de =>
    ((sortNames de.2).filter eligibleName).map (classifyOne parse fsys de.1))

/-! ## Normalizer (`normalize_has_data`, prepare_and_ingest.py lines 126-204) -/

/-- Canonical row as first built from a record (lines 162-188), before
filtering and coercion; fields still hold raw JSON values. -/
structure RawRow where
  td : Option Int
  openJ : Option JVal
  highJ : Option JVal
  lowJ : Option JVal
  closeJ : Option JVal
  turnJ : Option JVal
  svJ : Option JVal
  tvJ : Option JVal

/-- `trade_date` for the normalizer (lines 165-169): unlike the
classifier's date loop, the chained value is additionally subject to a
truthiness test (`... if td else ""`), and any conversion failure is caught
into the empty string (= `none`). -/
def tradeDateOf (fields : List (String × JVal)) : Option Int :=
  (tdOf fields).bind (fun v => if pyTruthy v then (pyInt v).bind pyMsToDay else none)

/-- `close` resolution (line 174): the `close` field is taken whenever it
is present and non-null (even if falsy, e.g. 0); only otherwise does the
value fall back to `it.get("v") or None`, which by truthiness discards a
falsy `v`. -/
def closeOf (fields : List (String × JVal)) : Option JVal :=
  match pyGet fields "close" with
  | some v => some v
  | none => pyOr2 (pyGet fields "v") none

/-- Build one canonical row from a dict record (lines 165-188).  The
`shareVolume`/`tradeVolume` lookups repeat the same key on both sides of
`or`, exactly as in the source. -/
def buildRow (fields : List (String × JVal)) : RawRow :=
  { td := tradeDateOf fields
    openJ := pyGet fields "open"
    highJ := pyGet fields "high"
    lowJ := pyGet fields "low"
    closeJ := closeOf fields
    turnJ := pyGet fields "turnover"
    svJ := pyOr2 (pyGet fields "shareVolume") (pyGet fields "shareVolume")
    tvJ := pyOr2 (pyGet fields "tradeVolume") (pyGet fields "tradeVolume") }

/-- Row filtering (lines 194-195): non-empty `trade_date` and non-null
`close`. -/
def survives (r : RawRow) : Bool :=
  r.td.isSome && r.closeJ.isSome

/-- A row of the written canonical CSV, after type coercion. -/
structure OutRow where
  ticker : String
  tradeDate : Option Int
  openQ : Option ℚ
  highQ : Option ℚ
  lowQ : Option ℚ
  closeQ : Option ℚ
  turnQ : Option ℚ
  svI : Option Int
  tvI : Option Int
  deriving DecidableEq, Repr

/-- `astype("Int64")` after `to_numeric`, on one cell that does not make
the cast raise: an integral value casts, NaN becomes the nullable-integer
NA.  The raising case — a non-integral finite value, which aborts the whole
run with an uncaught `TypeError` at line 200 — is modelled separately by
`int64Raises`/`tickerAborts` and never reaches this function's `none`
branch on a non-aborting run. -/
def asInt64 (q : Option ℚ) : Option Int :=
  q.bind (fun x => if x.den = 1 then some x.num else none)

/-- Type coercion of one surviving row (lines 197-200). -/
def coerceRow (ticker : String) (r : RawRow) : OutRow :=
  { ticker := ticker
    tradeDate := r.td
    openQ := r.openJ.bind pyToNumeric
    highQ := r.highJ.bind pyToNumeric
    lowQ := r.lowJ.bind pyToNumeric
    closeQ := r.closeJ.bind pyToNumeric
    turnQ := r.turnJ.bind pyToNumeric
    svI := asInt64 (r.svJ.bind pyToNumeric)
    tvI := asInt64 (r.tvJ.bind pyToNumeric) }

/-- `df.sort_values("trade_date")` (line 201); every row reaching the sort
has a non-empty date, and ISO strings order as their day numbers. -/
def sortRows (l : List OutRow) : List OutRow :=
  l.insertionSort (fun a b => a.tradeDate.getD 0 ≤ b.tradeDate.getD 0)

/-- The `rows` list built by the record loop (lines 161-188): one raw
canonical row per dict record, non-dict records skipped. -/
def builtRows (records : List JVal) : List RawRow :=
  records.filterMap (fun it =>
    match it with
    | .jobj fs => some (buildRow fs)
    | _ => none)

/-- Normalization of one `has_data` ticker from its parsed record list
(lines 161-204).  `none` means no output file is written for the ticker:
that happens exactly when zero rows were *built* (`if not rows: continue`,
line 189), i.e. when no record is a dict.  Otherwise the CSV is written,
holding the filtered, coerced, sorted rows — possibly zero of them. -/
def normalizeTicker (t : String) (records : List JVal) : Option (List OutRow) :=
  let built := builtRows records
  if built.isEmpty then none
  else some (sortRows ((built.filter survives).map (coerceRow t)))

/-- One row of `data/tickers_used.csv`.  `rows` is `int(r.get("rows") or 0)`
(for classifier-written manifests this is the manifest record count);
`sd`/`ed` are `parse_date` results, `none` for the empty string or an
unparseable date. -/
structure SelRow where
  ticker : String
  rel : String
  rows : Int
  sd : Option Int
  ed : Option Int
  incl : Bool
  deriving DecidableEq, Repr

/-- `min_start and (sd is None or sd > min_start)` (line 45): a configured
`min_start` excludes entries whose start date is missing or later. -/
def startFails (minStart sd : Option Int) : Bool :=
  match minStart with
  | none => false
  | some m =>
    match sd with
    | none => true
    | some s => decide (m < s)

/-- `max_missing_days and sd and ed` then `span < max_missing_days`
(lines 48-51).  `max_missing_days` is an `int`, so the configured value 0
is falsy and disables the filter; date objects are always truthy, so
`sd and ed` is a presence test. -/
def spanFails (mmd sd ed : Option Int) : Bool :=
  match mmd, sd, ed with
  | some t, some s, some e => decide (t ≠ 0) && decide (e - s < t)
  | _, _, _ => false

/-- The `include` flag (lines 42-51): successive `include = False`
assignments amount to the conjunction of the three tests passing. -/
def includeFlag (minRows : Int) (minStart mmd : Option Int)
    (rows : Int) (sd ed : Option Int) : Bool :=
  !(decide (rows < minRows)) && !(startFails minStart sd) && !(spanFails mmd sd ed)

/-- Selection row built from a manifest entry (lines 52-59). -/
def toSelRow (minRows : Int) (minStart mmd : Option Int) (r : ManRow) : SelRow :=
  { ticker := r.ticker
    rel := r.rel
    rows := (r.recs : Int)
    sd := r.sd
    ed := r.ed
    incl := includeFlag minRows minStart mmd (r.recs : Int) r.sd r.ed }

/-- The output ordering `key=lambda x: (-int(x["rows"]), x["ticker"])`
(line 65): row count descending, then ticker ascending. -/
def selLe (a b : SelRow) : Prop :=
  b.rows < a.rows ∨ (a.rows = b.rows ∧ a.ticker ≤ b.ticker)

instance : DecidableRel selLe := fun _ _ =>
  inferInstanceAs (Decidable (_ ∨ _))

/-- The whole selection pass (lines 31-66): keep `has_data` manifest
entries, compute each one's include flag, and write them sorted by the
output ordering. -/
def selectOut (minRows : Int) (minStart mmd : Option Int) (man : List ManRow) : List SelRow :=
  ((man.filter (fun r => r.status == "has_data")).map (toSelRow minRows minStart mmd)).insertionSort selLe

/-! ## Assembler (`scripts/assemble_prices.py`) -/

/-- Look up a ticker's canonical CSV in the normalized store (`path.exists`
plus `read_csv`); `none` means the file is missing. -/
def lookupStore (store : List (String × List OutRow)) (t : String) : Option (List OutRow) :=
  (store.find? (fun p => p.1 == t)).map Prod.snd

/-- Panel ordering `sort_values(["ticker","trade_date"])` (line 38). -/
def panelLe (a b : OutRow) : Prop :=
  a.ticker < b.ticker ∨ (a.ticker = b.ticker ∧ a.tradeDate.getD 0 ≤ b.tradeDate.getD 0)

instance : DecidableRel panelLe := fun _ _ =>
  inferInstanceAs (Decidable (_ ∨ _))

/-- `assemble(tickers)` (lines 17-40): per-ticker missing files are skipped
(with a warning); the run aborts with `SystemExit` exactly when `parts` is
empty, i.e. when no selected ticker's file exists; otherwise the parts are
concatenated (each part's `ticker` column overwritten with the selected
ticker) and sorted into the panel. -/
def assemble (store : List (String × List OutRow)) (tickers : List String) :
    Except String (List OutRow) :=
  let parts := tickers.filterMap (fun t =>
    (lookupStore store t).map (fun rows => rows.map (fun r => { r with ticker := t })))
  if parts.isEmpty then .error "No data assembled"
  else .ok ((parts.flatten).insertionSort panelLe)

/-! ## Returns computer (`scripts/compute_daily_returns.py`) -/

/-- IEEE-style value of one float cell of the returns output: finite,
`±inf`, or NaN.  NaN (and only NaN) is what pandas reads back as null;
infinities are ordinary non-null cells.  Signed zeros are not modelled:
the closes come from CSV text, where zero reads as `+0.0`. -/
inductive FVal where
  | nan : FVal
  | pinf : FVal
  | ninf : FVal
  | fin (q : ℚ) : FVal
  deriving DecidableEq, Repr

/-- `pct_change()` for one row given the shifted previous close (line 14):
NaN (null) for the first row of a partition; for a zero previous close the
float quotient is non-finite — `+inf`/`-inf` by the sign of the close, NaN
for 0/0 — and is written to `close_pct_return` unreplaced (the inf-to-null
replacement at line 18 applies only to the log-return series). -/
def pctReturn : Option ℚ → ℚ → FVal
  | none, _ => .nan
  | some p, c =>
    if p = 0 then (if c = 0 then .nan else if 0 < c then .pinf else .ninf)
    else .fin (c / p - 1)

/-- Argument of `np.log` surviving the non-finite replacement (lines
16-18): the ratio close/previous, `none` when there is no previous row or
when the float ratio would be non-finite or the log NaN — previous close
zero (ratio `±inf`, replaced by null) or a non-positive ratio (`log`
NaN/`-inf`, replaced by null).  In exact arithmetic all these cases are
`c / p ≤ 0` (division by zero being 0 in `ℚ`).  The written
`close_log_return` is `Real.log` mapped over this value. -/
def logArg : Option ℚ → ℚ → Option ℚ
  | none, _ => none
  | some p, c => if c / p ≤ 0 then none else some (c / p)

/-- One row of the returns output for a single ticker partition. -/
structure RetRow where
  d : Int
  c : ℚ
  pct : FVal
  lr : Option ℚ
  deriving DecidableEq, Repr

/-- `g.sort_values('trade_date')` (line 13). -/
def sortByDate (g : List (Int × ℚ)) : List (Int × ℚ) :=
  g.insertionSort (fun a b => a.1 ≤ b.1)

/-- `make_returns` (lines 12-20) on one ticker partition given as
(trade_date, close) pairs: sort by date, shift the close column by one
(`none` in front), and compute both returns row-wise. -/
def makeReturns (g : List (Int × ℚ)) : List RetRow :=
  let s := sortByDate g
  let prevs : List (Option ℚ) := none :: s.map (fun p => some p.2)
  s.zipWith (fun dc pr => ⟨dc.1, dc.2, pctReturn pr dc.2, logArg pr dc.2⟩) prevs

/-! ## Spec-side definitions

These follow the wording of the specification's claims (not the source) and
exist only to be compared against the source-derived definitions above. -/

/-- Shape statuses as the claims enumerate them: a parsed list of length 0
(or a dict whose first list-valued field in insertion order is empty) is
`empty_array`; a non-empty list (or dict whose first list-valued field is
non-empty) is `has_data`; a dict with no list-valued field, or any
non-list non-dict value, is `invalid_json`. -/
def specC2Shape : JVal → String
  | .jarr l => if l.length = 0 then "empty_array" else "has_data"
  | .jobj fs =>
    match firstListField fs with
    | some l => if l.length = 0 then "empty_array" else "has_data"
    | none => "invalid_json"
  | _ => "invalid_json"

/-- The claimed classification decision tree: size 0 or whitespace-only
content is `empty_file`; content that parses as JSON (directly, or through
the bracket-substring salvage when direct parsing fails) proceeds to shape
analysis; otherwise `invalid_json`. -/
def specC2Status (parse : String → Option JVal) (size : Nat) (content : String) : String :=
  if size = 0 ∨ pyStrip content = "" then "empty_file"
  else
    match parsedDoc parse (pyStrip content) with
    | some j => specC2Shape j
    | none => "invalid_json"

/-- Trade-date extraction as claim C3 words it: read the trade-date field
from aliases `tradeDate`, `d`, `date` in that priority order (first alias
present wins), interpret it as epoch milliseconds, and skip records whose
value is missing or unparseable. -/
def specClassDate : JVal → Option Int
  | .jobj fs =>
    (pyGet fs "tradeDate" <|> pyGet fs "d" <|> pyGet fs "date").bind
      (fun v => (pyInt v).bind pyMsToDay)
  | _ => none

/-- Inclusion as claim C6 words it: row count at least the minimum; when a
minimum start date is configured, the start date is present and on/before
it; when a minimum span is configured, the end-minus-start span in days is
not below it. -/
def specIncl (minRows : Int) (minStart mmd : Option Int) (rows : Int) (sd ed : Option Int) : Prop :=
  minRows ≤ rows ∧ (∀ m ∈ minStart, ∃ s ∈ sd, s ≤ m) ∧
    (∀ t ∈ mmd, ∀ s ∈ sd, ∀ e ∈ ed, t ≤ e - s)

/-! ## Shared lemmas -/

theorem extractDates_go (l : List JVal) (acc : List Int) :
    l.foldl (fun acc it =>
      match classDate it with
      | some d => acc ++ [d]
      | none => acc) acc = acc ++ l.filterMap classDate := by
  induction l generalizing acc with
  | nil => simp
  | cons x xs ih =>
    cases h : classDate x <;> simp [List.foldl_cons, h, ih, List.filterMap_cons]

/-- The classifier's imperative `dates` accumulation is the per-record
partial date extraction. -/
theorem extractDates_eq_filterMap (l : List JVal) :
    extractDates l = l.filterMap classDate := by
  simpa using extractDates_go l []

theorem shapeSum_status_eq_spec (j : JVal) :
    (shapeSum j).status = specC2Shape j := by
  cases j with
  | jarr l => cases l <;> simp [shapeSum, specC2Shape, listSummary]
  | jobj fs =>
    cases h : firstListField fs with
    | none => simp [shapeSum, specC2Shape, h]
    | some l => cases l <;> simp [shapeSum, specC2Shape, h, listSummary]
  | jnull => rfl
  | jbool b => rfl
  | jnum q => rfl
  | jstr s => rfl

/-- A trade date the normalizer keeps for a record is also extracted by the
classifier's date loop (the normalizer adds a truthiness guard and so keeps
strictly fewer records). -/
theorem classDate_of_tradeDateOf (fs : List (String × JVal)) (d : Int)
    (h : tradeDateOf fs = some d) : classDate (.jobj fs) = some d := by
  unfold tradeDateOf at h
  cases hch : tdOf fs with
  | none => rw [hch] at h; simp at h
  | some v =>
    rw [hch] at h
    simp only [Option.some_bind] at h
    simp only [classDate, hch, Option.some_bind]
    by_cases ht : pyTruthy v = true
    · rw [if_pos ht] at h; exact h
    · rw [if_neg ht] at h; simp at h

/-- Sorting a directory's file-name listing erases the listing order. -/
theorem sortNames_congr {l₁ l₂ : List String} (h : l₁.Perm l₂) :
    sortNames l₁ = sortNames l₂ :=
  List.eq_of_perm_of_sorted
    ((List.perm_insertionSort _ _).trans (h.trans (List.perm_insertionSort _ _).symm))
    (List.sorted_insertionSort _ _) (List.sorted_insertionSort _ _)

/-! ## Claims -/

/-- C2: for every raw file scanned by the classifier, the assigned status
follows the claimed decision tree — size 0 or whitespace-only content gives
`empty_file`; content that parses as JSON (directly, or via the
bracket-substring salvage when direct parsing fails) proceeds to shape
analysis, otherwise `invalid_json`; an empty record list (top-level or the
dict's first list-valued field) gives `empty_array`, a non-empty one
`has_data`; a dict with no list-valued field or any non-list non-dict
value gives `invalid_json`. -/
theorem classify_status_follows_decision_tree
    (parse : String → Option JVal) (size : Nat) (content : String) :
    (classifyBody parse size (.ok content)).status = specC2Status parse size content := by
  unfold classifyBody specC2Status
  by_cases h0 : size = 0
  · simp [h0]
  · by_cases h1 : pyStrip content = ""
    · simp [h0, h1]
    · simp only [h0, h1, if_false, or_false, or_iff_left h0, if_neg h0, if_neg h1,
        false_or, if_neg]
      cases hd : parsedDoc parse (pyStrip content) with
      | none => rfl
      | some j => exact shapeSum_status_eq_spec j

/-- C3 counterexample: in the record `{tradeDate: 0, d: 86400000}` the
`tradeDate` alias is present and parseable (epoch day 0), so under the
claimed priority rule the file's start date would be day 0 (1970-01-01);
the code chains the aliases with Python `or`, the falsy value 0 falls
through to `d`, and the manifest start date is day 1 (1970-01-02). -/
theorem classifier_start_date_alias_priority_cex :
    (listSummary [.jobj [("tradeDate", .jnum 0), ("d", .jnum 86400000)]]).sd = some 1 ∧
    ([JVal.jobj [("tradeDate", .jnum 0), ("d", .jnum 86400000)]].filterMap specClassDate).min? =
      some 0 ∧
    (listSummary [.jobj [("tradeDate", .jnum 0), ("d", .jnum 86400000)]]).sd ≠
      ([JVal.jobj [("tradeDate", .jnum 0), ("d", .jnum 86400000)]].filterMap specClassDate).min? := by
  refine ⟨rfl, rfl, ?_⟩
  intro h
  rw [show (listSummary [.jobj [("tradeDate", .jnum 0), ("d", .jnum 86400000)]]).sd = some 1
      from rfl,
    show ([JVal.jobj [("tradeDate", .jnum 0), ("d", .jnum 86400000)]].filterMap
      specClassDate).min? = some 0 from rfl] at h
  exact absurd (Option.some_injective _ h) (by decide)

/-- C3 amended: for every `has_data` record list, the manifest start/end
dates are the min/max of the dates extracted per record by `classDate`,
where the alias chain resolves by Python truthiness (a falsy alias value
falls through to the next alias) and records whose resolved value is
missing, unparseable, or out of the representable date range are skipped
without changing the `has_data` status; both dates are empty when no record
yields a date. -/
theorem classifier_start_end_dates_amended (l : List JVal) (hl : l ≠ []) :
    (listSummary l).status = "has_data" ∧
    (listSummary l).recs = l.length ∧
    (listSummary l).sd = (l.filterMap classDate).min? ∧
    (listSummary l).ed = (l.filterMap classDate).max? := by
  have hne : l.isEmpty = false := by
    cases l with
    | nil => exact absurd rfl hl
    | cons x xs => rfl
  refine ⟨?_, ?_, ?_, ?_⟩ <;>
    simp [listSummary, hne, extractDates_eq_filterMap]

/-- Witness for the amended C3 theorem at a concrete record list: one
record with a malformed (non-numeric) date value is skipped from the
min/max computation, one record is extractable, and the file is still
`has_data`. -/
theorem classifier_start_end_dates_amended_witness :
    (listSummary [.jobj [("tradeDate", .jstr "abc")], .jobj [("d", .jnum 86400000)]]).status =
        "has_data" ∧
    (listSummary [.jobj [("tradeDate", .jstr "abc")], .jobj [("d", .jnum 86400000)]]).recs = 2 ∧
    (listSummary [.jobj [("tradeDate", .jstr "abc")], .jobj [("d", .jnum 86400000)]]).sd =
      ([JVal.jobj [("tradeDate", .jstr "abc")],
        JVal.jobj [("d", .jnum 86400000)]].filterMap classDate).min? ∧
    (listSummary [.jobj [("tradeDate", .jstr "abc")], .jobj [("d", .jnum 86400000)]]).ed =
      ([JVal.jobj [("tradeDate", .jstr "abc")],
        JVal.jobj [("d", .jnum 86400000)]].filterMap classDate).max? :=
  classifier_start_end_dates_amended _ (List.cons_ne_nil _ _)

/-- C10: a record with `close = 0` keeps close 0 and survives filtering,
while a record with no `close` and `v = 0` gets a null close and is
discarded; in general, when `close` is absent the fallback to `v` is taken
exactly when `v` is truthy, not merely present. -/
theorem close_zero_kept_falsy_v_discarded :
    normalizeTicker "T" [.jobj [("tradeDate", .jnum 86400000), ("close", .jnum 0)]] =
      some [⟨"T", some 1, none, none, none, some 0, none, none, none⟩] ∧
    normalizeTicker "T" [.jobj [("tradeDate", .jnum 86400000), ("v", .jnum 0)]] = some [] ∧
    ∀ fields : List (String × JVal), pyGet fields "close" = none →
      ((closeOf fields).isSome ↔ ∃ v, pyGet fields "v" = some v ∧ pyTruthy v = true) := by
  refine ⟨rfl, rfl, ?_⟩
  intro fields h
  unfold closeOf
  rw [h]
  cases hv : pyGet fields "v" with
  | none => simp [pyOr2, hv]
  | some v =>
    cases ht : pyTruthy v <;> simp [pyOr2, hv, ht]

/-- Witness for the general part of C10 at a concrete record: `v = 0` is
present but falsy, so the close fallback yields null. -/
theorem close_zero_kept_falsy_v_discarded_witness :
    pyGet [("v", JVal.jnum 0)] "close" = none ∧
    ((closeOf [("v", JVal.jnum 0)]).isSome ↔
      ∃ v, pyGet [("v", JVal.jnum 0)] "v" = some v ∧ pyTruthy v = true) :=
  ⟨rfl, close_zero_kept_falsy_v_discarded.2.2 _ rfl⟩

/-- C1 counterexample: the record `{tradeDate: 86400000, close: "x"}` has a
non-null close, survives both filters, and is written — but `to_numeric`
coerces the non-numeric string to null *after* the filters, so the written
CSV row has a null close, contradicting the claimed invariant. -/
theorem normalized_rows_null_close_cex :
    normalizeTicker "T" [.jobj [("tradeDate", .jnum 86400000), ("close", .jstr "x")]] =
      some [⟨"T", some 1, none, none, none, none, none, none, none⟩] :=
  rfl

/-- C1 amended: every row written by the normalizer has a non-empty
trade_date, its trade_date is among the dates extractable from the source
records, and its close was non-null *before* type coercion; after coercion
the close is null exactly for surviving rows whose raw close value is not
numeric. -/
theorem normalized_rows_amended (t : String) (recs : List JVal) (out : List OutRow)
    (h : normalizeTicker t recs = some out) :
    ∀ row ∈ out, row.tradeDate.isSome ∧
      (∀ d, row.tradeDate = some d → d ∈ recs.filterMap classDate) ∧
      ∃ r, r ∈ builtRows recs ∧ survives r = true ∧ r.closeJ.isSome ∧ row = coerceRow t r := by
  intro row hrow
  unfold normalizeTicker at h
  by_cases hb : (builtRows recs).isEmpty
  · simp [hb] at h
  · rw [if_neg hb] at h
    obtain rfl := Option.some_injective _ h
    rw [sortRows, List.mem_insertionSort] at hrow
    obtain ⟨r, hr, hco⟩ := List.mem_map.mp hrow
    obtain ⟨hrb, hsv⟩ := List.mem_filter.mp hr
    have hsv' := hsv
    unfold survives at hsv'
    rw [Bool.and_eq_true] at hsv'
    refine ⟨?_, ?_, r, hrb, hsv, hsv'.2, hco.symm⟩
    · rw [← hco]
      exact hsv'.1
    · intro d hd
      rw [← hco] at hd
      obtain ⟨it, hit, hbuild⟩ := List.mem_filterMap.mp hrb
      cases it with
      | jobj fs =>
        simp only [Option.some.injEq] at hbuild
        refine List.mem_filterMap.mpr ⟨.jobj fs, hit, ?_⟩
        refine classDate_of_tradeDateOf fs d ?_
        rw [← hbuild] at hd
        exact hd
      | jnull => exact absurd hbuild (by simp)
      | jbool b => exact absurd hbuild (by simp)
      | jnum q => exact absurd hbuild (by simp)
      | jstr s => exact absurd hbuild (by simp)
      | jarr xs => exact absurd hbuild (by simp)

/-- Witness for the amended C1 theorem at a concrete good record: the one
written row has a present trade_date lying among the extractable dates, and
a pre-coercion non-null close. -/
theorem normalized_rows_amended_witness :
    (⟨"T", some 1, none, none, none, some 5, none, none, none⟩ : OutRow).tradeDate.isSome ∧
      (∀ d, (⟨"T", some 1, none, none, none, some 5, none, none, none⟩ : OutRow).tradeDate =
          some d →
        d ∈ [JVal.jobj [("tradeDate", .jnum 86400000), ("close", .jnum 5)]].filterMap classDate) ∧
      ∃ r, r ∈ builtRows [JVal.jobj [("tradeDate", .jnum 86400000), ("close", .jnum 5)]] ∧
        survives r = true ∧ r.closeJ.isSome ∧
        (⟨"T", some 1, none, none, none, some 5, none, none, none⟩ : OutRow) = coerceRow "T" r :=
  normalized_rows_amended "T" [JVal.jobj [("tradeDate", .jnum 86400000), ("close", .jnum 5)]]
    [⟨"T", some 1, none, none, none, some 5, none, none, none⟩] rfl _
    (List.mem_singleton.mpr rfl)

/-- C4: a file whose processing raises (here: the read step fails, the one
fallible operation inside the per-file `try` not already caught by an inner
handler) receives status `error` in the manifest, and the classification
pass still emits exactly one manifest row per eligible file, so the run
continues with the remaining files. -/
theorem per_file_exception_gives_error_status
    (parse : String → Option JVal) (fsys : String → String → Nat × Except Unit String)
    (dir n : String) :
    ((fsys dir n).1 ≠ 0 → (fsys dir n).2.isOk = false →
      (classifyOne parse fsys dir n).status = "error") ∧
    ∀ walk : List (String × List String),
      (classifyRun parse fsys walk).length =
        (walk.map (fun de => ((sortNames de.2).filter eligibleName).length)).sum := by
  constructor
  · intro hsz hrd
    unfold classifyOne classifyBody
    dsimp only
    rw [if_neg hsz]
    cases hv : (fsys dir n).2 with
    | ok raw => rw [hv] at hrd; exact absurd hrd (by simp [Except.isOk, Except.toBool])
    | error e => rfl
  · intro walk
    induction walk with
    | nil => rfl
    | cons de rest ih =>
      simp only [classifyRun, List.flatMap_cons, List.length_append, List.length_map,
        List.map_cons, List.sum_cons] at ih ⊢
      rw [ih]

/-- Witness for C4 at a concrete failing read: size 5, read raises. -/
theorem per_file_exception_gives_error_status_witness :
    ((fun (_ _ : String) => ((5 : Nat), (Except.error () : Except Unit String))) "x" "a.json").1 ≠ 0 ∧
    (classifyOne (fun _ => none) (fun _ _ => (5, Except.error ())) "x" "a.json").status = "error" :=
  ⟨by decide,
    (per_file_exception_gives_error_status (fun _ => none)
      (fun _ _ => (5, Except.error ())) "x" "a.json").1 (by decide) rfl⟩

/-- C9: the manifest produced by a classification pass is a function of the
directory sequence and each directory's file *set* alone — any two listing
orders of the same files yield identical manifest rows, the per-directory
order having been made deterministic by sorted traversal.  Running the pass
twice on an unchanged store is the special case of identical listings. -/
theorem classification_deterministic_under_listing_order
    (parse : String → Option JVal) (fsys : String → String → Nat × Except Unit String)
    (walk₁ walk₂ : List (String × List String))
    (h : List.Forall₂ (fun a b => a.1 = b.1 ∧ a.2.Perm b.2) walk₁ walk₂) :
    classifyRun parse fsys walk₁ = classifyRun parse fsys walk₂ := by
  induction h with
  | nil => rfl
  | cons hab _ ih =>
    simp only [classifyRun, List.flatMap_cons] at ih ⊢
    rw [ih, hab.1, sortNames_congr hab.2]

/-- Witness for C9: two listings of the same directory in different orders
classify identically. -/
theorem classification_deterministic_under_listing_order_witness :
    classifyRun (fun _ => none) (fun _ _ => (0, Except.error ()))
        [("", ["b.json", "a.json"])] =
      classifyRun (fun _ => none) (fun _ _ => (0, Except.error ()))
        [("", ["a.json", "b.json"])] :=
  classification_deterministic_under_listing_order _ _ _ _
    (List.Forall₂.cons ⟨rfl, by decide⟩ List.Forall₂.nil)

instance : IsTotal SelRow selLe where
  total a b := by
    unfold selLe
    rcases lt_trichotomy a.rows b.rows with h | h | h
    · exact Or.inr (Or.inl h)
    · rcases le_total a.ticker b.ticker with ht | ht
      · exact Or.inl (Or.inr ⟨h, ht⟩)
      · exact Or.inr (Or.inr ⟨h.symm, ht⟩)
    · exact Or.inl (Or.inl h)

instance : IsTrans SelRow selLe where
  trans a b c hab hbc := by
    unfold selLe at hab hbc ⊢
    rcases hab with h | ⟨he, ht⟩ <;> rcases hbc with h' | ⟨he', ht'⟩
    · exact Or.inl (by omega)
    · exact Or.inl (by omega)
    · exact Or.inl (by omega)
    · exact Or.inr ⟨by omega, le_trans ht ht'⟩

/-- The include flag computed by the code coincides with the claimed
threshold rules, provided start ≤ end whenever both dates are present (true
of every classifier-produced manifest row). -/
theorem includeFlag_iff (minRows : Int) (minStart mmd : Option Int) (rows : Int)
    (sd ed : Option Int) (hse : ∀ s ∈ sd, ∀ e ∈ ed, s ≤ e) :
    includeFlag minRows minStart mmd rows sd ed = true ↔
      specIncl minRows minStart mmd rows sd ed := by
  cases minStart <;> cases mmd <;> cases sd <;> cases ed <;>
    simp_all [includeFlag, startFails, spanFails, specIncl, Option.mem_def] <;>
    omega

/-- C6: a `has_data` manifest entry is marked include exactly when its row
count is at least the minimum, its start date is present and on/before a
configured minimum-start threshold, and (when a minimum span is configured)
its end-minus-start span in days is not below the threshold; the output
lists all `has_data` entries, sorted by row count descending then ticker
ascending. -/
theorem ticker_selection_rules (minRows : Int) (minStart mmd : Option Int)
    (man : List ManRow) (h : ∀ r ∈ man, ∀ s ∈ r.sd, ∀ e ∈ r.ed, s ≤ e) :
    (∀ r ∈ man, includeFlag minRows minStart mmd (r.recs : Int) r.sd r.ed = true ↔
      specIncl minRows minStart mmd (r.recs : Int) r.sd r.ed) ∧
    (selectOut minRows minStart mmd man).Perm
      ((man.filter (fun r => r.status == "has_data")).map (toSelRow minRows minStart mmd)) ∧
    (selectOut minRows minStart mmd man).Sorted selLe :=
  ⟨fun r hr => includeFlag_iff minRows minStart mmd (r.recs : Int) r.sd r.ed (h r hr),
    List.perm_insertionSort _ _, List.sorted_insertionSort _ _⟩

/-- Witness for C6 on a one-entry manifest with `min_rows = 100`, a
configured minimum start date, and no span threshold. -/
theorem ticker_selection_rules_witness :
    (∀ r ∈ [(⟨"A", "A.json", "has_data", 120, some 0, some 10, 5⟩ : ManRow)],
      includeFlag 100 (some 0) none (r.recs : Int) r.sd r.ed = true ↔
        specIncl 100 (some 0) none (r.recs : Int) r.sd r.ed) ∧
    (selectOut 100 (some 0) none [⟨"A", "A.json", "has_data", 120, some 0, some 10, 5⟩]).Perm
      (([(⟨"A", "A.json", "has_data", 120, some 0, some 10, 5⟩ : ManRow)].filter
          (fun r => r.status == "has_data")).map (toSelRow 100 (some 0) none)) ∧
    (selectOut 100 (some 0) none [⟨"A", "A.json", "has_data", 120, some 0, some 10, 5⟩]).Sorted
      selLe :=
  ticker_selection_rules 100 (some 0) none _ (by
    intro r hr s hs e he
    rw [List.mem_singleton] at hr
    subst hr
    simp only [Option.mem_def, Option.some.injEq] at hs he
    omega)

/-- C7 counterexample: one selected ticker whose canonical CSV exists but
contains zero data rows — zero rows are yielded in total, yet the assembler
does not fail; it writes an empty panel.  The claimed "non-zero exit iff
zero tickers yielded any rows" is therefore false in the only-if...if
direction: failure requires every selected ticker's *file* to be missing,
not merely every ticker to yield zero rows. -/
theorem assemble_zero_rows_no_failure_cex :
    assemble [("A", ([] : List OutRow))] ["A"] = .ok [] :=
  rfl

/-- C7 amended: the assembler exits non-zero exactly when no selected
ticker's canonical CSV file exists (every ticker was skipped with a
missing-file warning); a present file — even one holding zero rows — counts
as assembled and prevents the failure. -/
theorem assemble_failure_iff_all_files_missing
    (store : List (String × List OutRow)) (tickers : List String) :
    (assemble store tickers).isOk = false ↔ ∀ t ∈ tickers, lookupStore store t = none := by
  have hiff : (tickers.filterMap (fun t => (lookupStore store t).map
      (fun rows => List.map (fun r => { r with ticker := t }) rows))).isEmpty = true ↔
      ∀ t ∈ tickers, lookupStore store t = none := by
    rw [List.isEmpty_iff, List.filterMap_eq_nil_iff]
    constructor
    · intro h t ht
      exact Option.map_eq_none'.mp (h t ht)
    · intro h t ht
      rw [Option.map_eq_none']
      exact h t ht
  unfold assemble
  dsimp only
  by_cases hp : (tickers.filterMap (fun t => (lookupStore store t).map
      (fun rows => List.map (fun r => { r with ticker := t }) rows))).isEmpty
  · rw [if_pos hp]
    exact iff_of_true rfl (hiff.mp hp)
  · rw [if_neg hp]
    constructor
    · intro h
      exact absurd h (by simp [Except.isOk, Except.toBool])
    · intro h
      exact absurd (hiff.mpr h) hp

/-- C8: within one ticker partition sorted by trade date, the percentage
return of each row past the first is the fractional change from the
previous close, and the log return is the natural logarithm of
close/previous-close, replaced by null whenever that ratio is non-finite
or non-positive; both are null on the first row; when the previous close
is zero the log return is null while the percentage return is a
(non-null) infinity, the replacement applying only to the log series.  In
particular the closes [10, 11, 9.9] yield pct returns [null, 1/10, -1/10]
and log returns [null, ln(11/10), ln(9/10)]. -/
theorem daily_returns_spec :
    (∀ g : List (Int × ℚ),
      (∀ r₀, (makeReturns g).head? = some r₀ → r₀.pct = .nan ∧ r₀.lr = none) ∧
      (∀ i a b, (sortByDate g)[i]? = some a → (sortByDate g)[i + 1]? = some b →
        ∃ row : RetRow, (makeReturns g)[i + 1]? = some row ∧ row.d = b.1 ∧ row.c = b.2 ∧
          (a.2 ≠ 0 → row.pct = .fin (b.2 / a.2 - 1)) ∧
          (0 < b.2 / a.2 → row.lr.map Real.log = some (Real.log ((b.2 / a.2 : ℚ) : ℝ))) ∧
          (b.2 / a.2 ≤ 0 → row.lr = none) ∧
          (a.2 = 0 → row.lr = none ∧ (0 < b.2 → row.pct = .pinf)))) ∧
    (makeReturns [(0, 10), (1, 11), (2, (99 : ℚ) / 10)]).map
        (fun r => (r.pct, r.lr.map Real.log)) =
      [(.nan, none), (.fin (1 / 10), some (Real.log ((11 / 10 : ℚ) : ℝ))),
        (.fin (-(1 / 10)), some (Real.log ((9 / 10 : ℚ) : ℝ)))] := by
  constructor
  · intro g
    constructor
    · intro r₀ h
      unfold makeReturns at h
      cases hs : sortByDate g with
      | nil => rw [hs] at h; simp at h
      | cons x xs =>
        rw [hs] at h
        simp only [List.map_cons, List.zipWith_cons_cons, List.head?_cons,
          Option.some.injEq] at h
        subst h
        exact ⟨rfl, rfl⟩
    · intro i a b ha hb
      refine ⟨⟨b.1, b.2, pctReturn (some a.2) b.2, logArg (some a.2) b.2⟩, ?_, rfl, rfl,
        ?_, ?_, ?_, ?_⟩
      · unfold makeReturns
        dsimp only
        rw [List.getElem?_zipWith]
        rw [hb, List.getElem?_cons_succ, List.getElem?_map, ha]
        rfl
      · intro ha2
        show pctReturn (some a.2) b.2 = .fin (b.2 / a.2 - 1)
        simp only [pctReturn]
        rw [if_neg ha2]
      · intro hr
        show (logArg (some a.2) b.2).map Real.log = some (Real.log ((b.2 / a.2 : ℚ) : ℝ))
        simp only [logArg]
        rw [if_neg (not_le.mpr hr)]
        rfl
      · intro hr
        show (logArg (some a.2) b.2) = none
        simp only [logArg]
        rw [if_pos hr]
      · intro h0
        constructor
        · show (logArg (some a.2) b.2) = none
          simp only [logArg]
          rw [if_pos (by rw [h0, div_zero])]
        · intro hb2
          show pctReturn (some a.2) b.2 = .pinf
          simp only [pctReturn]
          rw [if_pos h0, if_neg (ne_of_gt hb2), if_pos hb2]
  · simp only [makeReturns, sortByDate, List.insertionSort, List.orderedInsert]
    norm_num [pctReturn, logArg]

/-- Witness for C8 on two concrete partitions: with closes [10, 11] the
second row's returns are 11/10 − 1 and ln(11/10); with closes [0, 5] the
previous close is zero, the log return is null and the percentage return
is the non-null infinity. -/
theorem daily_returns_spec_witness :
    (∃ row : RetRow, (makeReturns [((0 : Int), (10 : ℚ)), (1, 11)])[0 + 1]? = some row ∧
      row.d = 1 ∧ row.c = 11 ∧
      ((10 : ℚ) ≠ 0 → row.pct = .fin (11 / 10 - 1)) ∧
      (0 < (11 : ℚ) / 10 → row.lr.map Real.log = some (Real.log ((11 / 10 : ℚ) : ℝ))) ∧
      ((11 : ℚ) / 10 ≤ 0 → row.lr = none) ∧
      ((10 : ℚ) = 0 → row.lr = none ∧ (0 < (11 : ℚ) → row.pct = .pinf))) ∧
    (∃ row : RetRow, (makeReturns [((0 : Int), (0 : ℚ)), (1, 5)])[0 + 1]? = some row ∧
      row.d = 1 ∧ row.c = 5 ∧
      ((0 : ℚ) ≠ 0 → row.pct = .fin (5 / 0 - 1)) ∧
      (0 < (5 : ℚ) / 0 → row.lr.map Real.log = some (Real.log ((5 / 0 : ℚ) : ℝ))) ∧
      ((5 : ℚ) / 0 ≤ 0 → row.lr = none) ∧
      ((0 : ℚ) = 0 → row.lr = none ∧ (0 < (5 : ℚ) → row.pct = .pinf))) :=
  ⟨(daily_returns_spec.1 [((0 : Int), (10 : ℚ)), (1, 11)]).2 0 (0, 10) (1, 11) rfl rfl,
    (daily_returns_spec.1 [((0 : Int), (0 : ℚ)), (1, 5)]).2 0 (0, 0) (1, 5) rfl rfl⟩

end MFS
